import Mathlib

/-!
Verification of the timeclip Activity & Time-Accrual Engine.

Shallow embedding of the Go sources:
- `internal/database/sqlite.go` (DB operations over the `daily_time` and
  `system_events` tables; SQL rows are modelled as lists, `UPDATE ... WHERE`
  as a map over matching rows, `CURRENT_TIMESTAMP` as an explicit `t : Nat`
  argument, `time.Now().Format("2006-01-02")` as an explicit `today : String`
  argument),
- `internal/tracker/activity_detector.go` (the accrual state machine),
- `internal/api/autolog.go` (threshold trigger and the submission worker).

Go `int` fields are modelled as `Int`; SQLite TEXT as `String`.
-/

namespace Timeclip

/-- One row of the `daily_time` table / `models.DailyTimeEntry`. -/
structure DailyTimeEntry where
  id : Nat
  date : String
  activeMinutes : Int
  goalMinutes : Int
  isPaused : Bool
  autoLogged : Bool
  autoLogResponse : String
  createdAt : Nat
  updatedAt : Nat
deriving Repr, DecidableEq

/-- One row of the `system_events` table. -/
structure SystemEvent where
  eventType : String
  timestamp : Nat
  details : String
deriving Repr, DecidableEq

/-- The persistent database state: the two tables created by `initSchema`,
plus the AUTOINCREMENT counter for `daily_time.id`. -/
structure DBState where
  dailyTime : List DailyTimeEntry
  systemEvents : List SystemEvent
  nextId : Nat
deriving Repr, DecidableEq

/-- The `SELECT ... FROM daily_time WHERE date = ?` query (`date` is UNIQUE,
so the first match is the row). -/
def lookupDate (db : DBState) (date : String) : Option DailyTimeEntry :=
  db.dailyTime.find? (fun r => r.date == date)

/-- `LogSystemEvent`: `INSERT INTO system_events (event_type, details)`. -/
def logSystemEvent (t : Nat) (eventType details : String) (db : DBState) : DBState :=
  { db with systemEvents := db.systemEvents ++ [⟨eventType, t, details⟩] }

/-- `createEntryForDate`: `INSERT INTO daily_time (date, active_minutes,
goal_minutes, is_paused, auto_logged) VALUES (?, 0, 480, FALSE, FALSE)`,
then re-reads the inserted row by id.  Returns the row and the new state. -/
def createEntryForDate (t : Nat) (date : String) (db : DBState) :
    DailyTimeEntry × DBState :=
  let e : DailyTimeEntry :=
    { id := db.nextId, date := date, activeMinutes := 0, goalMinutes := 480,
      isPaused := false, autoLogged := false, autoLogResponse := "",
      createdAt := t, updatedAt := t }
  (e, { db with dailyTime := db.dailyTime ++ [e], nextId := db.nextId + 1 })

/-- `GetEntryForDate`: query the row for `date`; on `sql.ErrNoRows` create it. -/
def getEntryForDate (t : Nat) (date : String) (db : DBState) :
    DailyTimeEntry × DBState :=
  match lookupDate db date with
  | some r => (r, db)
  | none => createEntryForDate t date db

/-- A SQL `UPDATE daily_time SET ... WHERE p`: rewrite every matching row,
and report the number of rows affected. -/
def updateDaily (p : DailyTimeEntry → Bool) (f : DailyTimeEntry → DailyTimeEntry)
    (db : DBState) : DBState × Nat :=
  ({ db with dailyTime := db.dailyTime.map (fun r => if p r then f r else r) },
   (db.dailyTime.filter p).length)

/-- `IncrementActiveTimeForDate`: ensure the row exists, then
`UPDATE ... SET active_minutes = active_minutes + 1, updated_at = now
WHERE date = ? AND is_paused = FALSE`; when no row was affected, log an
`increment_skipped_paused` event. -/
def incrementActiveTimeForDate (t : Nat) (date : String) (db : DBState) : DBState :=
  let db1 := (getEntryForDate t date db).2
  let u := updateDaily (fun r => r.date == date && !r.isPaused)
    (fun r => { r with activeMinutes := r.activeMinutes + 1, updatedAt := t }) db1
  if u.2 == 0 then
    logSystemEvent t "increment_skipped_paused" ("Date: " ++ date) u.1
  else u.1

/-- `SetPauseStateForDate`: ensure the row exists, `UPDATE ... SET is_paused = ?,
updated_at = now WHERE date = ?`, then log a `pause`/`resume` event. -/
def setPauseStateForDate (t : Nat) (date : String) (paused : Bool) (db : DBState) :
    DBState :=
  let db1 := (getEntryForDate t date db).2
  let db2 := (updateDaily (fun r => r.date == date)
    (fun r => { r with isPaused := paused, updatedAt := t }) db1).1
  logSystemEvent t (if paused then "pause" else "resume") ("Date: " ++ date) db2

/-- `MarkAsAutoLogged`: `UPDATE ... SET auto_logged = TRUE, auto_log_response = ?,
updated_at = now WHERE date = ?` (no ensure-exists), then log an
`auto_logged` event. -/
def markAsAutoLogged (t : Nat) (date : String) (response : String) (db : DBState) :
    DBState :=
  let db1 := (updateDaily (fun r => r.date == date)
    (fun r =>
      { r with
        autoLogged := true, autoLogResponse := response, updatedAt := t }) db).1
  logSystemEvent t "auto_logged" ("Date: " ++ date) db1

/-- The active minutes persisted for a date (0 when no row exists yet). -/
def rowMinutes (db : DBState) (date : String) : Int :=
  match lookupDate db date with
  | some r => r.activeMinutes
  | none => 0

/-- Whether the row for a date is marked submitted (`auto_logged`). -/
def rowLogged (db : DBState) (date : String) : Bool :=
  match lookupDate db date with
  | some r => r.autoLogged
  | none => false

/-!
## The accrual state machine (`internal/tracker/activity_detector.go`)

`notifyStateChange` spawns one goroutine per registered callback
(`go callback(isActive, entry)`): each delivery is dispatched before the
mutating operation returns, but it is executed asynchronously.  The
delivery mode is recorded so that statements about synchrony are about the
source, not about the spec's wording.
-/

/-- How a state-change notification reaches an observer. -/
inductive DeliveryMode where
  | sync
  | async
deriving Repr, DecidableEq

/-- One dispatched state-change notification. -/
structure Notify where
  mode : DeliveryMode
  isActive : Bool
  entry : DailyTimeEntry
deriving Repr, DecidableEq

/-- `notifyStateChange`: for each of the `n` registered callbacks, spawn a
goroutine running `callback(isActive, entry)` — an asynchronous delivery. -/
def notifyStateChange (n : Nat) (isActive : Bool) (entry : DailyTimeEntry) :
    List Notify :=
  List.replicate n ⟨DeliveryMode.async, isActive, entry⟩

/-- The detector after a successful `Start`: the cached current entry
(`ad.currentEntry`, non-nil inside the tracking loop) and the database. -/
structure ActiveState where
  entry : DailyTimeEntry
  db : DBState
deriving Repr, DecidableEq

/-- `processMinuteIncrement`, one tick of the tracking loop.  `n` is the
number of registered callbacks, `t` the current timestamp, `today` the
current calendar key (`time.Now().Format("2006-01-02")`), `isActive` the
monitor's composite liveness signal.  Returns the new detector state and
the notifications dispatched during the tick. -/
def processMinuteIncrement (n t : Nat) (today : String) (isActive : Bool)
    (s : ActiveState) : ActiveState × List Notify :=
  let shouldIncrement := isActive && !s.entry.isPaused
  let step1 : ActiveState × List Notify :=
    if shouldIncrement then
      let db1 := incrementActiveTimeForDate t today s.db
      let refreshed := getEntryForDate t today db1
      (⟨refreshed.1, refreshed.2⟩, notifyStateChange n isActive refreshed.1)
    else (s, [])
  if step1.1.entry.date ≠ today then
    let rolled := getEntryForDate t today step1.1.db
    (⟨rolled.1, rolled.2⟩, step1.2 ++ notifyStateChange n isActive rolled.1)
  else step1

/-- A sequence of ticks on a single calendar day `d`; each tick carries its
timestamp and the liveness signal it observed. -/
def runTicks (n : Nat) (d : String) (ticks : List (Nat × Bool))
    (s : ActiveState) : ActiveState :=
  ticks.foldl (fun st tk => (processMinuteIncrement n tk.1 d tk.2 st).1) s

/-- A sequence of ticks whose calendar day may vary (clock rollover):
each tick carries timestamp, current date and liveness signal. -/
def runTicksD (n : Nat) (ticks : List (Nat × String × Bool))
    (s : ActiveState) : ActiveState :=
  ticks.foldl (fun st tk => (processMinuteIncrement n tk.1 tk.2.1 tk.2.2 st).1) s

/-- The detector as seen by callers of pause operations: `ad.currentEntry`
may still be nil before `Start` has completed. -/
structure DetectorState where
  currentEntry : Option DailyTimeEntry
  db : DBState
deriving Repr, DecidableEq

/-- `SetPause(paused)`: error when there is no current entry; no-op when the
requested state already holds; otherwise persist via `SetPauseState`, update
the cached entry, and dispatch the notifications.  Returns the Go error
value, the new state, and the dispatched notifications. -/
def setPause (n t : Nat) (today : String) (isActive paused : Bool)
    (s : DetectorState) : Except String Unit × DetectorState × List Notify :=
  match s.currentEntry with
  | none => (Except.error "no current entry to pause/resume", s, [])
  | some e =>
    if e.isPaused = paused then (Except.ok (), s, [])
    else
      let db1 := setPauseStateForDate t today paused s.db
      let e1 := { e with isPaused := paused }
      (Except.ok (), ⟨some e1, db1⟩, notifyStateChange n isActive e1)

/-- `TogglePause`: error when there is no current entry; otherwise always
persist the flipped flag, update the cache, and dispatch notifications. -/
def togglePause (n t : Nat) (today : String) (isActive : Bool)
    (s : DetectorState) : Except String Unit × DetectorState × List Notify :=
  match s.currentEntry with
  | none => (Except.error "no current entry to pause/resume", s, [])
  | some e =>
    let newPauseState := !e.isPaused
    let db1 := setPauseStateForDate t today newPauseState s.db
    let e1 := { e with isPaused := newPauseState }
    (Except.ok (), ⟨some e1, db1⟩, notifyStateChange n isActive e1)

/-!
## Threshold trigger and submission worker (`internal/api/autolog.go`)

`thresholdHours` is a Go `float64`; it is modelled as a rational.  At the
inputs the claims use (359, 360 minutes against 6.0 hours) binary64
evaluation of `float64(minutes)/60.0 >= threshold` agrees with the exact
rational comparison, since 360/60 = 6 is exact and fl(359/60) < 6.
-/

/-- A queued `LogRequest`. -/
structure LogRequest where
  entry : DailyTimeEntry
  description : String
  force : Bool
deriving Repr, DecidableEq

/-- `AutoLogger.ShouldAutoLog`: false for nil or already-logged entries,
otherwise `float64(ActiveMinutes)/60.0 >= thresholdHours`. -/
def shouldAutoLog (thresholdHours : ℚ) (entry : Option DailyTimeEntry) : Bool :=
  match entry with
  | none => false
  | some e =>
    if e.autoLogged then false
    else decide ((e.activeMinutes : ℚ) / 60 ≥ thresholdHours)

/-- `CheckAndLog`: evaluate `ShouldAutoLog` and, when it holds, enqueue a
non-forced request onto `logChan` (buffered capacity 100; when the queue is
full the `select` default drops the job). -/
def checkAndLog (thresholdHours : ℚ) (queue : List LogRequest)
    (e : DailyTimeEntry) : List LogRequest :=
  if shouldAutoLog thresholdHours (some e) then
    if queue.length < 100 then
      queue ++ [⟨e, "Timeclip auto-log for " ++ e.date, false⟩]
    else queue
  else queue

/-- The observable result of one backend call: the response string that
`markAsLogged` would persist on success, or an error message. -/
inductive BackendRes where
  | ok (response : String)
  | err (msg : String)
deriving Repr, DecidableEq

/-- Whether a backend call succeeded. -/
def BackendRes.isOk : BackendRes → Bool
  | .ok _ => true
  | .err _ => false

/-- The outcome of `processLogRequest`: the backends attempted in order,
the note passed to `MarkAsAutoLogged` when some backend succeeded, and
whether the all-APIs-failed error was logged. -/
structure JobOutcome where
  attempts : List String
  marked : Option String
  allFailed : Bool
deriving Repr, DecidableEq

/-- Lookup `al.apis[name]` in the enumerated map. -/
def lookupApi (apis : List (String × BackendRes)) (name : String) :
    Option BackendRes :=
  (apis.find? (fun x => x.1 == name)).map (fun x => x.2)

/-- The fallback loop `for name, api := range al.apis` skipping the
preferred name: returns the names attempted and the first success.  The
list `apis` is the enumeration order the Go runtime happened to produce
for the map (map iteration order is unspecified). -/
def tryFallbacks (preferred : String) :
    List (String × BackendRes) → List String × Option String
  | [] => ([], none)
  | x :: rest =>
    if x.1 == preferred then tryFallbacks preferred rest
    else
      match x.2 with
      | .ok response => ([x.1], some response)
      | .err _ =>
        let r := tryFallbacks preferred rest
        (x.1 :: r.1, r.2)

/-- `processLogRequest`, the body of the queue worker: skip non-forced
requests that are already logged or below threshold; otherwise try the
preferred API when it is among the enabled clients, then the remaining
clients in map-enumeration order; the first success is persisted via
`MarkAsAutoLogged` with the backend's response as the note. -/
def processLogRequest (thresholdHours : ℚ) (preferred : String)
    (apis : List (String × BackendRes)) (req : LogRequest) : JobOutcome :=
  let e := req.entry
  if !req.force && (e.autoLogged || !shouldAutoLog thresholdHours (some e)) then
    ⟨[], none, false⟩
  else
    match lookupApi apis preferred with
    | some (.ok response) => ⟨[preferred], some response, false⟩
    | some (.err _) =>
      let r := tryFallbacks preferred apis
      ⟨preferred :: r.1, r.2, r.2.isNone⟩
    | none =>
      let r := tryFallbacks preferred apis
      ⟨r.1, r.2, r.2.isNone⟩

/-- Apply a job outcome to the database: a success calls
`MarkAsAutoLogged(date, note)`, a total failure writes nothing. -/
def applyOutcome (t : Nat) (o : JobOutcome) (date : String) (db : DBState) :
    DBState :=
  match o.marked with
  | some note => markAsAutoLogged t date note db
  | none => db

/-!
## The persistence operations as an operation language

Every mutation the engine issues against the store, for invariant proofs
that quantify over arbitrary operation sequences.
-/

/-- One engine-issued persistence call. -/
inductive DbOp where
  | getEntry (t : Nat) (date : String)
  | increment (t : Nat) (date : String)
  | setPauseOp (t : Nat) (date : String) (paused : Bool)
  | mark (t : Nat) (date : String) (note : String)
  | logEvent (t : Nat) (eventType details : String)
deriving Repr, DecidableEq

/-- Interpret one persistence call on the database. -/
def applyOp (db : DBState) : DbOp → DBState
  | .getEntry t date => (getEntryForDate t date db).2
  | .increment t date => incrementActiveTimeForDate t date db
  | .setPauseOp t date p => setPauseStateForDate t date p db
  | .mark t date note => markAsAutoLogged t date note db
  | .logEvent t ty details => logSystemEvent t ty details db

/-- Interpret a sequence of persistence calls. -/
def runOps (ops : List DbOp) (db : DBState) : DBState :=
  ops.foldl applyOp db

/-!
## Reference/aliasing model of the detector cache

`ad.currentEntry` is a Go pointer.  `GetCurrentEntry` copies the pointed-to
struct into a fresh allocation (`entryCopy := *ad.currentEntry; return
&entryCopy`), while `TogglePause` and `SetPause` pass `ad.currentEntry`
itself to `notifyStateChange`.  The heap is a map from allocation ids to
entry structs; `cur` is the id held in `ad.currentEntry`. -/
structure RefState where
  heap : Nat → DailyTimeEntry
  next : Nat
  cur : Nat

/-- Dereference a pointer. -/
def readRef (s : RefState) (r : Nat) : DailyTimeEntry := s.heap r

/-- Assignment through a pointer (what an observer that mutates its
argument would do). -/
def writeRef (s : RefState) (r : Nat) (e : DailyTimeEntry) : RefState :=
  { s with heap := Function.update s.heap r e }

/-- `GetCurrentEntry`: allocate a fresh struct holding a copy of
`*ad.currentEntry` and return the fresh pointer. -/
def getCurrentEntryRef (s : RefState) : Nat × RefState :=
  (s.next,
   { heap := Function.update s.heap s.next (s.heap s.cur),
     next := s.next + 1, cur := s.cur })

/-- The pointer dataflow of `TogglePause`: mutate `*ad.currentEntry` in
place (`ad.currentEntry.IsPaused = newPauseState`) and hand
`ad.currentEntry` to `notifyStateChange`.  Returns the new state and the
pointer passed to the observers. -/
def togglePauseRef (s : RefState) : RefState × Nat :=
  let e := s.heap s.cur
  ({ s with heap := Function.update s.heap s.cur { e with isPaused := !e.isPaused } },
   s.cur)

/-- The pointer dataflow of `SetPause` in the state-changing case: mutate
`*ad.currentEntry` in place and hand `ad.currentEntry` to the observers. -/
def setPauseRef (s : RefState) (paused : Bool) : RefState × Nat :=
  let e := s.heap s.cur
  ({ s with heap := Function.update s.heap s.cur { e with isPaused := paused } },
   s.cur)

/-!
## Definitions taken from the spec's words

These follow the specification text, for comparison against the embedded
code. -/

/-- Modelled from the spec: "creates with zero accrual, configured goal";
the configured goal in minutes is `GoalTimeHours * 60`
(`ActivityConfig.GoalMinutes = config.General.GoalTimeHours * 60`). -/
def configuredGoalMinutes (goalTimeHours : Int) : Int :=
  goalTimeHours * 60

/-- Modelled from the spec: the order in which the worker is said to try
backends — the preferred one first when it is among the enabled clients,
then the remaining enabled clients. -/
def triedOrder (preferred : String) (apis : List (String × BackendRes)) :
    List (String × BackendRes) :=
  match lookupApi apis preferred with
  | some r => (preferred, r) :: apis.filter (fun x => x.1 ≠ preferred)
  | none => apis.filter (fun x => x.1 ≠ preferred)

/-- The names attempted when calling a list of backends in order, stopping
at the first success. -/
def attemptsOf : List (String × BackendRes) → List String
  | [] => []
  | (name, .ok _) :: _ => [name]
  | (name, .err _) :: rest => name :: attemptsOf rest

/-- The response of the first succeeding backend in the list, if any. -/
def firstOkNote : List (String × BackendRes) → Option String
  | [] => none
  | (_, .ok response) :: _ => some response
  | (_, .err _) :: rest => firstOkNote rest

/-!
## Basic lemmas about the store operations
-/

theorem dailyTime_logSystemEvent (t : Nat) (ty de : String) (db : DBState) :
    (logSystemEvent t ty de db).dailyTime = db.dailyTime := rfl

theorem lookupDate_logSystemEvent (t : Nat) (ty de : String) (db : DBState)
    (d : String) : lookupDate (logSystemEvent t ty de db) d = lookupDate db d := rfl

theorem find?_map_pres {α : Type} (g : α → α) (p : α → Bool)
    (h : ∀ a, p (g a) = p a) :
    ∀ l : List α, (l.map g).find? p = (l.find? p).map g
  | [] => rfl
  | a :: l => by
    cases hpa : p a
    · have hga : p (g a) = false := (h a).trans hpa
      rw [List.map_cons, List.find?_cons_of_neg _ (by simp [hga]),
        List.find?_cons_of_neg _ (by simp [hpa]), find?_map_pres g p h l]
    · have hga : p (g a) = true := (h a).trans hpa
      rw [List.map_cons, List.find?_cons_of_pos _ hga, List.find?_cons_of_pos _ hpa]
      simp

theorem lookupDate_updateDaily (p : DailyTimeEntry → Bool)
    (f : DailyTimeEntry → DailyTimeEntry) (hdate : ∀ r, (f r).date = r.date)
    (db : DBState) (d : String) :
    lookupDate (updateDaily p f db).1 d
      = (lookupDate db d).map (fun r => if p r then f r else r) := by
  unfold lookupDate updateDaily
  apply find?_map_pres
  intro a
  by_cases hp : p a
  · simp [hp, hdate a]
  · simp [hp]

theorem lookupDate_create_self (t : Nat) (d : String) (db : DBState)
    (h : lookupDate db d = none) :
    lookupDate (createEntryForDate t d db).2 d
      = some (createEntryForDate t d db).1 := by
  unfold lookupDate at h
  unfold lookupDate createEntryForDate
  rw [List.find?_append, h]
  simp [List.find?]

theorem lookupDate_create_other (t : Nat) (d d0 : String) (db : DBState)
    (hne : d0 ≠ d) :
    lookupDate (createEntryForDate t d db).2 d0 = lookupDate db d0 := by
  unfold lookupDate createEntryForDate
  rw [List.find?_append]
  have : (d == d0) = false := by
    simp only [beq_eq_false_iff_ne, ne_eq]
    exact fun hcontra => hne hcontra.symm
  simp [List.find?, this]

theorem getEntryForDate_of_some (t : Nat) (d : String) (db : DBState)
    (r : DailyTimeEntry) (h : lookupDate db d = some r) :
    getEntryForDate t d db = (r, db) := by
  simp [getEntryForDate, h]

theorem lookupDate_getEntryForDate_self (t : Nat) (d : String) (db : DBState) :
    lookupDate (getEntryForDate t d db).2 d = some (getEntryForDate t d db).1 := by
  unfold getEntryForDate
  cases h : lookupDate db d with
  | some r => simp [h]
  | none => simpa [h] using lookupDate_create_self t d db h

theorem lookupDate_getEntryForDate_other (t : Nat) (d d0 : String) (db : DBState)
    (hne : d0 ≠ d) :
    lookupDate (getEntryForDate t d db).2 d0 = lookupDate db d0 := by
  unfold getEntryForDate
  cases h : lookupDate db d with
  | some r => simp [h]
  | none => simpa [h] using lookupDate_create_other t d d0 db hne

theorem lookupDate_date_eq (db : DBState) (d : String) (r : DailyTimeEntry)
    (h : lookupDate db d = some r) : r.date = d := by
  unfold lookupDate at h
  have hp := List.find?_some h
  exact beq_iff_eq.mp hp

theorem lookupDate_updateDaily_other (p : DailyTimeEntry → Bool)
    (f : DailyTimeEntry → DailyTimeEntry) (hdate : ∀ r, (f r).date = r.date)
    (hp : ∀ r, p r = true → r.date = dd) (db : DBState) (d0 : String)
    (hne : d0 ≠ dd) :
    lookupDate (updateDaily p f db).1 d0 = lookupDate db d0 := by
  rw [lookupDate_updateDaily p f hdate db d0]
  cases h : lookupDate db d0 with
  | none => rfl
  | some r =>
    have hrd : r.date = d0 := lookupDate_date_eq db d0 r h
    have hpr : p r = false := by
      cases hc : p r with
      | false => rfl
      | true => exact absurd (hrd ▸ hp r hc) hne
    simp [hpr]

theorem getEntryForDate_date (t : Nat) (d : String) (db : DBState) :
    (getEntryForDate t d db).1.date = d := by
  unfold getEntryForDate
  cases h : lookupDate db d with
  | some r => simpa using lookupDate_date_eq db d r h
  | none => rfl

/-!
## Lemmas about the increment, pause and mark operations
-/

theorem lookupDate_ite_log (c : Prop) [Decidable c] (t : Nat) (ty de : String)
    (x : DBState) (d : String) :
    lookupDate (if c then logSystemEvent t ty de x else x) d = lookupDate x d := by
  split <;> rfl

theorem lookupDate_increment_of_some (t : Nat) (d : String) (db : DBState)
    (r : DailyTimeEntry) (h : lookupDate db d = some r) :
    lookupDate (incrementActiveTimeForDate t d db) d
      = some (if r.isPaused then r
              else { r with activeMinutes := r.activeMinutes + 1, updatedAt := t }) := by
  unfold incrementActiveTimeForDate
  rw [getEntryForDate_of_some t d db r h]
  have hbd : (r.date == d) = true := beq_iff_eq.mpr (lookupDate_date_eq db d r h)
  have hupd := lookupDate_updateDaily
    (fun x => x.date == d && !x.isPaused)
    (fun x => { x with activeMinutes := x.activeMinutes + 1, updatedAt := t })
    (fun _ => rfl) db d
  dsimp only
  rw [lookupDate_ite_log, hupd, h]
  have hrd : r.date = d := lookupDate_date_eq db d r h
  cases hp : r.isPaused <;> simp [hbd, hp, hrd]

theorem lookupDate_increment_other (t : Nat) (d d0 : String) (db : DBState)
    (hne : d0 ≠ d) :
    lookupDate (incrementActiveTimeForDate t d db) d0 = lookupDate db d0 := by
  unfold incrementActiveTimeForDate
  have hupd := lookupDate_updateDaily_other
    (fun x => x.date == d && !x.isPaused)
    (fun x => { x with activeMinutes := x.activeMinutes + 1, updatedAt := t })
    (fun _ => rfl)
    (fun x hx => beq_iff_eq.mp (Bool.and_eq_true_iff.mp hx).1)
    (getEntryForDate t d db).2 d0 hne
  dsimp only
  rw [lookupDate_ite_log, hupd, lookupDate_getEntryForDate_other t d d0 db hne]

theorem lookupDate_setPauseState_self (t : Nat) (d : String) (p : Bool)
    (db : DBState) :
    (lookupDate (setPauseStateForDate t d p db) d).map (fun r => r.isPaused)
      = some p := by
  unfold setPauseStateForDate
  rw [lookupDate_logSystemEvent,
    lookupDate_updateDaily (fun x => x.date == d)
      (fun x => { x with isPaused := p, updatedAt := t }) (fun _ => rfl),
    lookupDate_getEntryForDate_self t d db]
  simp [getEntryForDate_date t d db]

theorem dailyTime_markAsAutoLogged (t : Nat) (d note : String) (db : DBState) :
    (markAsAutoLogged t d note db).dailyTime
      = db.dailyTime.map (fun r =>
          if r.date == d then
            { r with autoLogged := true, autoLogResponse := note, updatedAt := t }
          else r) := rfl

theorem systemEvents_markAsAutoLogged (t : Nat) (d note : String) (db : DBState) :
    (markAsAutoLogged t d note db).systemEvents
      = db.systemEvents ++ [⟨"auto_logged", t, "Date: " ++ d⟩] := rfl

/-!
## Coherence of the in-memory cache with the store, and tick lemmas
-/

/-- After a successful `Start` (and along the single-threaded tracking loop)
the cached entry is exactly the stored row for the current day `d`. -/
def coherent (d : String) (s : ActiveState) : Prop :=
  s.entry.date = d ∧ lookupDate s.db d = some s.entry

instance coherentDecidable (d : String) (s : ActiveState) :
    Decidable (coherent d s) :=
  inferInstanceAs (Decidable (s.entry.date = d ∧ lookupDate s.db d = some s.entry))

theorem processMinuteIncrement_true (n t : Nat) (d : String) (a : Bool)
    (s : ActiveState) (hinc : (a && !s.entry.isPaused) = true) :
    (processMinuteIncrement n t d a s).1
      = ⟨(getEntryForDate t d (incrementActiveTimeForDate t d s.db)).1,
         (getEntryForDate t d (incrementActiveTimeForDate t d s.db)).2⟩ := by
  unfold processMinuteIncrement
  simp [hinc, getEntryForDate_date]

theorem processMinuteIncrement_false_stay (n t : Nat) (d : String) (a : Bool)
    (s : ActiveState) (hinc : (a && !s.entry.isPaused) = false)
    (hstay : s.entry.date = d) :
    (processMinuteIncrement n t d a s).1 = s := by
  unfold processMinuteIncrement
  simp [hinc, hstay]

theorem processMinuteIncrement_false_roll (n t : Nat) (d : String) (a : Bool)
    (s : ActiveState) (hinc : (a && !s.entry.isPaused) = false)
    (hne : s.entry.date ≠ d) :
    (processMinuteIncrement n t d a s).1
      = ⟨(getEntryForDate t d s.db).1, (getEntryForDate t d s.db).2⟩ := by
  unfold processMinuteIncrement
  simp [hinc, hne]

theorem tick_delta (n t : Nat) (d : String) (a : Bool) (s : ActiveState)
    (h : coherent d s) :
    coherent d (processMinuteIncrement n t d a s).1 ∧
    rowMinutes (processMinuteIncrement n t d a s).1.db d
      = rowMinutes s.db d + (if a && !s.entry.isPaused then 1 else 0) := by
  obtain ⟨hdate, hlook⟩ := h
  cases hinc : a && !s.entry.isPaused with
  | false =>
    rw [processMinuteIncrement_false_stay n t d a s hinc hdate]
    simp [coherent, hdate, hlook]
  | true =>
    have hpf : s.entry.isPaused = false := by
      have hand := Bool.and_eq_true_iff.mp hinc
      simpa using hand.2
    have hlk1 : lookupDate (incrementActiveTimeForDate t d s.db) d
        = some
          { s.entry with
            activeMinutes := s.entry.activeMinutes + 1, updatedAt := t } := by
      rw [lookupDate_increment_of_some t d s.db s.entry hlook]
      simp [hpf]
    have hget := getEntryForDate_of_some t d (incrementActiveTimeForDate t d s.db)
      _ hlk1
    rw [processMinuteIncrement_true n t d a s hinc, hget]
    refine ⟨⟨hdate, ?_⟩, ?_⟩
    · simpa [hget] using hlk1
    · simp [rowMinutes, hlk1, hlook]

theorem runTicks_nil (n : Nat) (d : String) (s : ActiveState) :
    runTicks n d [] s = s := rfl

theorem runTicks_cons (n : Nat) (d : String) (tk : Nat × Bool)
    (ticks : List (Nat × Bool)) (s : ActiveState) :
    runTicks n d (tk :: ticks) s
      = runTicks n d ticks (processMinuteIncrement n tk.1 d tk.2 s).1 := rfl

theorem runTicks_coherent (n : Nat) (d : String) :
    ∀ (ticks : List (Nat × Bool)) (s : ActiveState), coherent d s →
      coherent d (runTicks n d ticks s)
  | [], _, h => h
  | tk :: ticks, s, h =>
    runTicks_coherent n d ticks _ (tick_delta n tk.1 d tk.2 s h).1

theorem runTicks_mono (n : Nat) (d : String) :
    ∀ (ticks : List (Nat × Bool)) (s : ActiveState), coherent d s →
      rowMinutes s.db d ≤ rowMinutes (runTicks n d ticks s).db d
  | [], _, _ => le_refl _
  | tk :: ticks, s, h => by
    have hd := tick_delta n tk.1 d tk.2 s h
    have hrest := runTicks_mono n d ticks _ hd.1
    rw [runTicks_cons]
    refine le_trans ?_ hrest
    rw [hd.2]
    split <;> omega

theorem tick_preserves_row (n t : Nat) (today d0 : String) (a : Bool)
    (s : ActiveState) (hne : d0 ≠ today) :
    lookupDate (processMinuteIncrement n t today a s).1.db d0
      = lookupDate s.db d0 := by
  cases hinc : a && !s.entry.isPaused with
  | false =>
    by_cases hstay : s.entry.date = today
    · rw [processMinuteIncrement_false_stay n t today a s hinc hstay]
    · rw [processMinuteIncrement_false_roll n t today a s hinc hstay]
      exact lookupDate_getEntryForDate_other t today d0 s.db hne
  | true =>
    rw [processMinuteIncrement_true n t today a s hinc]
    rw [lookupDate_getEntryForDate_other t today d0 _ hne,
      lookupDate_increment_other t today d0 s.db hne]

theorem tick_rollover (n t : Nat) (today : String) (a : Bool) (s : ActiveState)
    (hne : s.entry.date ≠ today) :
    (processMinuteIncrement n t today a s).1.entry.date = today ∧
    lookupDate (processMinuteIncrement n t today a s).1.db today
      = some (processMinuteIncrement n t today a s).1.entry := by
  cases hinc : a && !s.entry.isPaused with
  | false =>
    rw [processMinuteIncrement_false_roll n t today a s hinc hne]
    exact ⟨getEntryForDate_date t today s.db,
      lookupDate_getEntryForDate_self t today s.db⟩
  | true =>
    rw [processMinuteIncrement_true n t today a s hinc]
    exact ⟨getEntryForDate_date t today (incrementActiveTimeForDate t today s.db),
      lookupDate_getEntryForDate_self t today (incrementActiveTimeForDate t today s.db)⟩

theorem runTicksD_cons (n : Nat) (tk : Nat × String × Bool)
    (ticks : List (Nat × String × Bool)) (s : ActiveState) :
    runTicksD n (tk :: ticks) s
      = runTicksD n ticks (processMinuteIncrement n tk.1 tk.2.1 tk.2.2 s).1 := rfl

theorem runTicksD_preserves (n : Nat) (d0 : String) :
    ∀ (ticks : List (Nat × String × Bool)) (s : ActiveState),
      (∀ tk ∈ ticks, tk.2.1 ≠ d0) →
      lookupDate (runTicksD n ticks s).db d0 = lookupDate s.db d0
  | [], _, _ => rfl
  | tk :: ticks, s, h => by
    rw [runTicksD_cons,
      runTicksD_preserves n d0 ticks _ (fun x hx => h x (List.mem_cons_of_mem tk hx)),
      tick_preserves_row n tk.1 tk.2.1 d0 tk.2.2 s
        (Ne.symm (h tk (List.mem_cons_self tk ticks)))]

/-!
## One-directionality of the submitted flag
-/

theorem rowLogged_ite_log (c : Prop) [Decidable c] (t : Nat) (ty de : String)
    (x : DBState) (d : String) :
    rowLogged (if c then logSystemEvent t ty de x else x) d = rowLogged x d := by
  split <;> rfl

theorem rowLogged_getEntryForDate (t : Nat) (date d : String) (db : DBState)
    (h : rowLogged db d = true) :
    rowLogged (getEntryForDate t date db).2 d = true := by
  unfold rowLogged at h ⊢
  cases hl : lookupDate db d with
  | none => rw [hl] at h; simp at h
  | some r =>
    rw [hl] at h
    by_cases hdd : d = date
    · subst hdd
      rw [getEntryForDate_of_some t d db r hl, hl]
      exact h
    · rw [lookupDate_getEntryForDate_other t date d db hdd, hl]
      exact h

theorem rowLogged_updateDaily (p : DailyTimeEntry → Bool)
    (f : DailyTimeEntry → DailyTimeEntry) (hdate : ∀ r, (f r).date = r.date)
    (hauto : ∀ r, r.autoLogged = true → (f r).autoLogged = true)
    (db : DBState) (d : String) (h : rowLogged db d = true) :
    rowLogged (updateDaily p f db).1 d = true := by
  unfold rowLogged at h ⊢
  rw [lookupDate_updateDaily p f hdate db d]
  cases hl : lookupDate db d with
  | none => rw [hl] at h; simp at h
  | some r =>
    rw [hl] at h
    have hr : r.autoLogged = true := h
    by_cases hp : p r <;> simp [hp, hauto r hr, hr]

theorem rowLogged_applyOp (db : DBState) (op : DbOp) (d : String)
    (h : rowLogged db d = true) : rowLogged (applyOp db op) d = true := by
  cases op with
  | getEntry t date => exact rowLogged_getEntryForDate t date d db h
  | increment t date =>
    have h1 := rowLogged_getEntryForDate t date d db h
    have h2 := rowLogged_updateDaily (fun x => x.date == date && !x.isPaused)
      (fun x => { x with activeMinutes := x.activeMinutes + 1, updatedAt := t })
      (fun _ => rfl) (fun _ hr => hr) _ d h1
    unfold applyOp incrementActiveTimeForDate
    dsimp only
    rw [rowLogged_ite_log]
    exact h2
  | setPauseOp t date p =>
    have h1 := rowLogged_getEntryForDate t date d db h
    have h2 := rowLogged_updateDaily (fun x => x.date == date)
      (fun x => { x with isPaused := p, updatedAt := t })
      (fun _ => rfl) (fun _ hr => hr) _ d h1
    unfold applyOp setPauseStateForDate
    dsimp only
    exact h2
  | mark t date note =>
    have h2 := rowLogged_updateDaily (fun x => x.date == date)
      (fun x =>
        { x with
          autoLogged := true, autoLogResponse := note, updatedAt := t })
      (fun _ => rfl) (fun _ _ => rfl) db d h
    unfold applyOp markAsAutoLogged
    dsimp only
    exact h2
  | logEvent t ty de => exact h

theorem rowLogged_runOps (d : String) :
    ∀ (ops : List DbOp) (db : DBState), rowLogged db d = true →
      rowLogged (runOps ops db) d = true
  | [], _, h => h
  | op :: ops, db, h => rowLogged_runOps d ops _ (rowLogged_applyOp db op d h)

/-!
## Characterization of the submission worker
-/

theorem tryFallbacks_eq (pref : String) :
    ∀ l : List (String × BackendRes),
      tryFallbacks pref l
        = (attemptsOf (l.filter (fun x => x.1 ≠ pref)),
           firstOkNote (l.filter (fun x => x.1 ≠ pref)))
  | [] => rfl
  | ⟨nm, r⟩ :: l => by
    by_cases hx : nm = pref
    · simp [tryFallbacks, hx, tryFallbacks_eq pref l]
    · have hb : (nm == pref) = false := beq_eq_false_iff_ne.mpr hx
      cases r with
      | ok resp => simp [tryFallbacks, hb, hx, attemptsOf, firstOkNote]
      | err m =>
        simp [tryFallbacks, hb, hx, attemptsOf, firstOkNote, tryFallbacks_eq pref l]

theorem processLogRequest_eq (thr : ℚ) (pref : String)
    (apis : List (String × BackendRes)) (req : LogRequest)
    (hproc : (!req.force
      && (req.entry.autoLogged || !shouldAutoLog thr (some req.entry))) = false) :
    processLogRequest thr pref apis req
      = ⟨attemptsOf (triedOrder pref apis), firstOkNote (triedOrder pref apis),
         (firstOkNote (triedOrder pref apis)).isNone⟩ := by
  unfold processLogRequest triedOrder
  simp only [hproc, Bool.false_eq_true, if_false]
  cases hla : lookupApi apis pref with
  | none => simp [tryFallbacks_eq]
  | some r =>
    cases r with
    | ok resp => simp [attemptsOf, firstOkNote]
    | err m => simp [attemptsOf, firstOkNote, tryFallbacks_eq]

/-!
## Concrete fixtures for witnesses and counterexamples
-/

/-- A fresh unpaused, unsubmitted record for 2025-01-01. -/
def exEntry : DailyTimeEntry := ⟨1, "2025-01-01", 0, 480, false, false, "", 0, 0⟩

/-- A store holding exactly the fixture record. -/
def exDb : DBState := ⟨[exEntry], [], 2⟩

/-- A post-Start detector state caching the fixture record. -/
def exActive : ActiveState := ⟨exEntry, exDb⟩

/-- A detector state (pause-operation view) caching the fixture record. -/
def exDet : DetectorState := ⟨some exEntry, exDb⟩

/-- A detector state before `Start` has produced a current entry. -/
def exDetNil : DetectorState := ⟨none, exDb⟩

/-- The fixture record at 360 accrued minutes. -/
def exEntry360 : DailyTimeEntry := ⟨1, "2025-01-01", 360, 480, false, false, "", 0, 0⟩

/-- A forced submission job for the 360-minute record. -/
def exReqForce : LogRequest := ⟨exEntry360, "Timeclip auto-log for 2025-01-01", true⟩

/-- A heap state whose only allocation is the cached record. -/
def exRef : RefState := ⟨fun _ => exEntry, 1, 0⟩

/-- An arbitrary record an observer might write through its argument. -/
def exMut : DailyTimeEntry := ⟨99, "1999-01-01", 999, 0, true, true, "mutated", 9, 9⟩

/-- An empty store. -/
def dbEmpty : DBState := ⟨[], [], 1⟩

/-- A store with an unsubmitted 400-minute record. -/
def exDb7 : DBState := ⟨[⟨1, "2025-01-01", 400, 480, false, false, "", 0, 0⟩], [], 2⟩

/-- A store whose record is already submitted. -/
def exDbLogged : DBState := ⟨[⟨1, "2025-01-01", 400, 480, false, true, "done", 0, 0⟩], [], 2⟩

/-!
## The claims
-/

/-- Claim C1: for every tick sequence processed by the accrual engine from a
coherent post-Start state on day `d`, the day's accrued minutes are
non-decreasing, and each tick increases them by exactly one when the
liveness probe reported active and the cached record was not paused, and
leaves them unchanged on every other tick. -/
theorem accrual_tick_monotone_delta (n : Nat) (d : String) (s0 : ActiveState)
    (h : coherent d s0) (ticks : List (Nat × Bool)) :
    rowMinutes s0.db d ≤ rowMinutes (runTicks n d ticks s0).db d ∧
    ∀ pre tk post, ticks = pre ++ tk :: post →
      rowMinutes ((processMinuteIncrement n tk.1 d tk.2 (runTicks n d pre s0)).1).db d
        = rowMinutes (runTicks n d pre s0).db d
          + (if tk.2 && !(runTicks n d pre s0).entry.isPaused then 1 else 0) :=
  ⟨runTicks_mono n d ticks s0 h,
   fun pre tk _ _ =>
     (tick_delta n tk.1 d tk.2 (runTicks n d pre s0)
       (runTicks_coherent n d pre s0 h)).2⟩

/-- Witness for C1 at a concrete state and a one-tick sequence. -/
theorem accrual_tick_monotone_delta_witness :
    coherent "2025-01-01" exActive ∧
    rowMinutes exActive.db "2025-01-01"
      ≤ rowMinutes (runTicks 1 "2025-01-01" [(1, true)] exActive).db "2025-01-01" :=
  ⟨by decide,
   (accrual_tick_monotone_delta 1 "2025-01-01" exActive (by decide) [(1, true)]).1⟩

/-- Claim C8: the submitted (`auto_logged`) flag transitions one-directionally:
no engine-issued persistence operation resets it, and a non-forced job whose
record snapshot is already submitted is skipped with no backend attempt. -/
theorem submitted_one_directional (d : String) (db : DBState)
    (h : rowLogged db d = true) (ops : List DbOp) :
    rowLogged (runOps ops db) d = true ∧
    ∀ (thr : ℚ) (pref : String) (apis : List (String × BackendRes))
      (req : LogRequest), req.force = false → req.entry.autoLogged = true →
      processLogRequest thr pref apis req = ⟨[], none, false⟩ := by
  refine ⟨rowLogged_runOps d ops db h, ?_⟩
  intro thr pref apis req hf ha
  simp [processLogRequest, hf, ha]

/-- Witness for C8 at a concrete submitted record and operation list. -/
theorem submitted_one_directional_witness :
    rowLogged exDbLogged "2025-01-01" = true ∧
    rowLogged (runOps [DbOp.increment 1 "2025-01-01"] exDbLogged) "2025-01-01"
      = true :=
  ⟨by decide,
   (submitted_one_directional "2025-01-01" exDbLogged (by decide)
     [DbOp.increment 1 "2025-01-01"]).1⟩

/-- Claim C9: on a tick whose current date differs from the cached record's
date, the engine swaps its cache to the fetched-or-created record for the
new date, and the prior day's stored record is not mutated by that tick nor
by any later tick taken on a different date. -/
theorem day_rollover_no_prior_mutation (n t : Nat) (today : String) (a : Bool)
    (s : ActiveState) (hroll : s.entry.date ≠ today)
    (rest : List (Nat × String × Bool))
    (hrest : ∀ tk ∈ rest, tk.2.1 ≠ s.entry.date) :
    (processMinuteIncrement n t today a s).1.entry.date = today ∧
    lookupDate (processMinuteIncrement n t today a s).1.db today
      = some (processMinuteIncrement n t today a s).1.entry ∧
    lookupDate (runTicksD n rest (processMinuteIncrement n t today a s).1).db
        s.entry.date
      = lookupDate s.db s.entry.date := by
  obtain ⟨h1, h2⟩ := tick_rollover n t today a s hroll
  refine ⟨h1, h2, ?_⟩
  rw [runTicksD_preserves n s.entry.date rest _ hrest,
    tick_preserves_row n t today s.entry.date a s hroll]

/-- Witness for C9 at a concrete midnight crossing. -/
theorem day_rollover_no_prior_mutation_witness :
    exActive.entry.date ≠ "2025-01-02" ∧
    (∀ tk ∈ [((2 : Nat), ("2025-01-02", true))], tk.2.1 ≠ exActive.entry.date) ∧
    (processMinuteIncrement 1 1 "2025-01-02" true exActive).1.entry.date
      = "2025-01-02" :=
  ⟨by decide, by decide,
   (day_rollover_no_prior_mutation 1 1 "2025-01-02" true exActive (by decide)
     [(2, "2025-01-02", true)] (by decide)).1⟩

/-- Claim C10: with no current entry (before `Start` completes), `TogglePause`
and `SetPause` return an error, leave the store and cache unchanged, and
notify no observer. -/
theorem pause_before_start_error (n t : Nat) (today : String)
    (isActive p : Bool) (s : DetectorState) (h : s.currentEntry = none) :
    setPause n t today isActive p s
      = (Except.error "no current entry to pause/resume", s, []) ∧
    togglePause n t today isActive s
      = (Except.error "no current entry to pause/resume", s, []) := by
  constructor <;> simp [setPause, togglePause, h]

/-- Witness for C10 at a concrete pre-Start state. -/
theorem pause_before_start_error_witness :
    exDetNil.currentEntry = none ∧
    setPause 1 1 "2025-01-01" true true exDetNil
      = (Except.error "no current entry to pause/resume", exDetNil, []) :=
  ⟨rfl, (pause_before_start_error 1 1 "2025-01-01" true true exDetNil rfl).1⟩

/-- Claim C2: with `thresholdUnits = 360` (`thresholdHours = 6.0`) and an
unsubmitted record, evaluating the trigger on the post-mutation record at
360 minutes enqueues exactly one job (the pre-crossing value 359 enqueues
none), and once the record is submitted every evaluation enqueues none. -/
theorem threshold_trigger_exactly_one (q : List LogRequest)
    (e : DailyTimeEntry) (hq : q.length < 100) (hno : e.autoLogged = false) :
    (e.activeMinutes = 359 → checkAndLog 6 q e = q) ∧
    (e.activeMinutes = 360 →
      checkAndLog 6 q e = q ++ [⟨e, "Timeclip auto-log for " ++ e.date, false⟩]) ∧
    (∀ (e2 : DailyTimeEntry) (q2 : List LogRequest), e2.autoLogged = true →
      checkAndLog 6 q2 e2 = q2) := by
  refine ⟨?_, ?_, ?_⟩
  · intro hm
    have hlt : ¬ ((6 : ℚ) ≤ 359 / 60) := by norm_num
    simp [checkAndLog, shouldAutoLog, hno, hm, hlt]
  · intro hm
    have hge : ((6 : ℚ) ≤ 360 / 60) := by norm_num
    simp [checkAndLog, shouldAutoLog, hno, hm, hge, hq]
  · intro e2 q2 h2
    simp [checkAndLog, shouldAutoLog, h2]

/-- Witness for C2 at the empty queue and the 360-minute record. -/
theorem threshold_trigger_exactly_one_witness :
    ([] : List LogRequest).length < 100 ∧ exEntry360.autoLogged = false ∧
    checkAndLog 6 [] exEntry360
      = [⟨exEntry360, "Timeclip auto-log for " ++ exEntry360.date, false⟩] :=
  ⟨by decide, rfl,
   (threshold_trigger_exactly_one [] exEntry360 (by decide) rfl).2.1 rfl⟩

/-- Claim C3 counterexample: the worker's fallback loop ranges over a Go map,
so the order in which remaining backends are tried is not stable — two legal
enumerations of the same client map yield different outcomes — and when the
preferred provider name matches no enabled client it is never attempted at
all; moreover the persisted note is the succeeding backend's response
string, which is identical across different succeeding backends and hence
attributes nothing. -/
theorem worker_order_note_counterexample :
    processLogRequest 6 "toggl"
        [("magnetic", BackendRes.ok "rm"), ("clockify", BackendRes.ok "rc")]
        exReqForce
      ≠ processLogRequest 6 "toggl"
        [("clockify", BackendRes.ok "rc"), ("magnetic", BackendRes.ok "rm")]
        exReqForce
    ∧ "toggl" ∉ (processLogRequest 6 "toggl"
        [("magnetic", BackendRes.ok "rm"), ("clockify", BackendRes.ok "rc")]
        exReqForce).attempts
    ∧ (processLogRequest 6 "magnetic"
        [("magnetic", BackendRes.err "auth"), ("clockify", BackendRes.ok "created")]
        exReqForce).marked = some "created"
    ∧ (processLogRequest 6 "clockify"
        [("magnetic", BackendRes.ok "created"), ("clockify", BackendRes.err "auth")]
        exReqForce).marked = some "created" := by
  refine ⟨by decide, by decide, by decide, by decide⟩

/-- Claim C3 (amended): for a processed job the worker tries the preferred
backend first when it is among the enabled clients (skipping it otherwise),
then the remaining clients in the map's enumeration order, stopping at the
first success, whose response string is persisted as the note; when every
attempt fails, the record is not marked and the store is unchanged. -/
theorem worker_fallback_characterization (thr : ℚ) (pref : String)
    (apis : List (String × BackendRes)) (req : LogRequest)
    (hproc : (!req.force
      && (req.entry.autoLogged || !shouldAutoLog thr (some req.entry))) = false) :
    (processLogRequest thr pref apis req).attempts
      = attemptsOf (triedOrder pref apis) ∧
    (processLogRequest thr pref apis req).marked
      = firstOkNote (triedOrder pref apis) ∧
    (processLogRequest thr pref apis req).allFailed
      = (firstOkNote (triedOrder pref apis)).isNone ∧
    ((processLogRequest thr pref apis req).marked = none →
      ∀ (t : Nat) (d : String) (db : DBState),
        applyOutcome t (processLogRequest thr pref apis req) d db = db) := by
  have he := processLogRequest_eq thr pref apis req hproc
  refine ⟨by rw [he], by rw [he], by rw [he], ?_⟩
  intro hm t d db
  unfold applyOutcome
  rw [hm]

/-- Witness for C3 (amended) at a concrete forced job. -/
theorem worker_fallback_characterization_witness :
    ((!exReqForce.force && (exReqForce.entry.autoLogged
        || !shouldAutoLog 6 (some exReqForce.entry))) = false) ∧
    (processLogRequest 6 "magnetic" [("magnetic", BackendRes.err "x")]
        exReqForce).attempts
      = attemptsOf (triedOrder "magnetic" [("magnetic", BackendRes.err "x")]) :=
  ⟨by decide,
   (worker_fallback_characterization 6 "magnetic"
     [("magnetic", BackendRes.err "x")] exReqForce (by decide)).1⟩

/-- Claim C4 counterexample: the state-change notification dispatched by a
state-changing `SetPause` (and by `TogglePause`) is delivered by spawning a
goroutine per observer — an asynchronous delivery, not a synchronous one. -/
theorem pause_notification_async_counterexample :
    (setPause 1 5 "2025-01-01" true true exDet).2.2
      = [⟨DeliveryMode.async, true, { exEntry with isPaused := true }⟩]
    ∧ (togglePause 1 5 "2025-01-01" true exDet).2.2
      = [⟨DeliveryMode.async, true, { exEntry with isPaused := true }⟩]
    ∧ DeliveryMode.async ≠ DeliveryMode.sync := by
  refine ⟨by decide, by decide, by decide⟩

/-- Claim C4 (amended): `SetPause` is a no-op (no store write, no
notification) when the requested state already holds; otherwise `SetPause`
and `TogglePause` persist the new flag, update the cached record, and
dispatch one notification per registered observer before returning — each
delivered asynchronously in its own goroutine, not synchronously. -/
theorem pause_persist_update_notify (n t : Nat) (today : String)
    (isActive p : Bool) (s : DetectorState) (e : DailyTimeEntry)
    (he : s.currentEntry = some e) :
    (e.isPaused = p → setPause n t today isActive p s = (Except.ok (), s, [])) ∧
    (e.isPaused ≠ p →
      (setPause n t today isActive p s).1 = Except.ok () ∧
      (setPause n t today isActive p s).2.1.currentEntry
        = some { e with isPaused := p } ∧
      ((lookupDate (setPause n t today isActive p s).2.1.db today).map
        (fun r => r.isPaused)) = some p ∧
      (setPause n t today isActive p s).2.2
        = notifyStateChange n isActive { e with isPaused := p } ∧
      ∀ nt ∈ (setPause n t today isActive p s).2.2,
        nt.mode = DeliveryMode.async) ∧
    ((togglePause n t today isActive s).2.1.currentEntry
        = some { e with isPaused := !e.isPaused } ∧
      ((lookupDate (togglePause n t today isActive s).2.1.db today).map
        (fun r => r.isPaused)) = some (!e.isPaused) ∧
      (togglePause n t today isActive s).2.2
        = notifyStateChange n isActive { e with isPaused := !e.isPaused } ∧
      ∀ nt ∈ (togglePause n t today isActive s).2.2,
        nt.mode = DeliveryMode.async) := by
  refine ⟨?_, ?_, ?_⟩
  · intro hp
    simp [setPause, he, hp]
  · intro hp
    have hsp : setPause n t today isActive p s
        = (Except.ok (), ⟨some { e with isPaused := p },
            setPauseStateForDate t today p s.db⟩,
           notifyStateChange n isActive { e with isPaused := p }) := by
      simp [setPause, he, hp]
    rw [hsp]
    refine ⟨rfl, rfl, lookupDate_setPauseState_self t today p s.db, rfl, ?_⟩
    intro nt hm
    have := List.eq_of_mem_replicate hm
    rw [this]
  · have htp : togglePause n t today isActive s
        = (Except.ok (), ⟨some { e with isPaused := !e.isPaused },
            setPauseStateForDate t today (!e.isPaused) s.db⟩,
           notifyStateChange n isActive { e with isPaused := !e.isPaused }) := by
      simp [togglePause, he]
    rw [htp]
    refine ⟨rfl, lookupDate_setPauseState_self t today (!e.isPaused) s.db, rfl, ?_⟩
    intro nt hm
    have := List.eq_of_mem_replicate hm
    rw [this]

/-- Witness for C4 (amended): the no-op case at a concrete state. -/
theorem pause_persist_update_notify_witness :
    exDet.currentEntry = some exEntry ∧
    setPause 1 5 "2025-01-01" true false exDet = (Except.ok (), exDet, []) :=
  ⟨rfl,
   (pause_persist_update_notify 1 5 "2025-01-01" true false exDet exEntry rfl).1
     rfl⟩

/-- Claim C5 counterexample: `TogglePause` hands observers the pointer to
the live cached record itself, so an observer writing through its argument
changes the engine's cached state. -/
theorem observer_receives_live_cache_counterexample :
    (togglePauseRef exRef).2 = exRef.cur ∧
    readRef (writeRef (togglePauseRef exRef).1 (togglePauseRef exRef).2 exMut)
        exRef.cur = exMut ∧
    exMut ≠ readRef (togglePauseRef exRef).1 exRef.cur := by
  refine ⟨rfl, ?_, ?_⟩
  · simp [readRef, writeRef, togglePauseRef, exRef]
  · decide

/-- Claim C5 (amended): values handed to callers by `GetCurrentEntry` are
fresh copies — mutating the returned allocation leaves the cache intact —
but `TogglePause` and `SetPause` pass the live cache pointer to observers. -/
theorem caller_copy_observer_alias (s : RefState) (h : s.cur < s.next)
    (e : DailyTimeEntry) :
    (getCurrentEntryRef s).1 ≠ s.cur ∧
    readRef (getCurrentEntryRef s).2 (getCurrentEntryRef s).1 = readRef s s.cur ∧
    readRef (writeRef (getCurrentEntryRef s).2 (getCurrentEntryRef s).1 e) s.cur
      = readRef s s.cur ∧
    (togglePauseRef s).2 = s.cur ∧
    ∀ p : Bool, (setPauseRef s p).2 = s.cur := by
  have hne : s.next ≠ s.cur := by omega
  have hne2 : s.cur ≠ s.next := by omega
  refine ⟨hne, ?_, ?_, rfl, fun _ => rfl⟩
  · simp [getCurrentEntryRef, readRef]
  · simp [getCurrentEntryRef, readRef, writeRef,
      Function.update_noteq hne2]

/-- Witness for C5 (amended) at a concrete heap. -/
theorem caller_copy_observer_alias_witness :
    exRef.cur < exRef.next ∧ (getCurrentEntryRef exRef).1 ≠ exRef.cur :=
  ⟨by decide, (caller_copy_observer_alias exRef (by decide) exMut).1⟩

/-- Claim C6 counterexample: a freshly created record's goal is the literal
480 written in the `INSERT`, not the configured goal — with
`goal_time_hours = 5` the configured goal is 300 minutes, yet the created
record carries 480. -/
theorem created_goal_not_configured_counterexample :
    (getEntryForDate 0 "2025-01-02" dbEmpty).1.goalMinutes = 480 ∧
    configuredGoalMinutes 5 = 300 ∧ (480 : Int) ≠ 300 := by
  refine ⟨by decide, by decide, by decide⟩

/-- Claim C6 (amended): `GetEntryForDate` returns the existing record when
one exists; otherwise it creates and returns a record with zero accrued
minutes, the fixed default goal of 480 minutes (not the configured goal),
`paused = false` and `submitted = false`; and it preserves
at-most-one-record-per-date. -/
theorem get_or_create_record_spec (t : Nat) (d : String) (db : DBState) :
    (∀ r, lookupDate db d = some r → getEntryForDate t d db = (r, db)) ∧
    (lookupDate db d = none →
      (getEntryForDate t d db).1.date = d ∧
      (getEntryForDate t d db).1.activeMinutes = 0 ∧
      (getEntryForDate t d db).1.goalMinutes = 480 ∧
      (getEntryForDate t d db).1.isPaused = false ∧
      (getEntryForDate t d db).1.autoLogged = false ∧
      (getEntryForDate t d db).2.dailyTime
        = db.dailyTime ++ [(getEntryForDate t d db).1]) ∧
    ((db.dailyTime.map (fun r => r.date)).Nodup →
      ((getEntryForDate t d db).2.dailyTime.map (fun r => r.date)).Nodup) := by
  refine ⟨fun r h => getEntryForDate_of_some t d db r h, ?_, ?_⟩
  · intro h
    simp [getEntryForDate, h, createEntryForDate]
  · intro hnd
    cases h : lookupDate db d with
    | some r =>
      rw [getEntryForDate_of_some t d db r h]
      exact hnd
    | none =>
      have habs : ∀ r ∈ db.dailyTime, r.date ≠ d := by
        intro r hr
        have hfind : db.dailyTime.find? (fun x => x.date == d) = none := h
        have hfun := List.find?_eq_none.mp hfind r hr
        simpa using hfun
      simp only [getEntryForDate, h, createEntryForDate]
      rw [List.map_append]
      rw [List.nodup_append]
      refine ⟨hnd, List.nodup_singleton _, ?_⟩
      intro x hx hx2
      obtain ⟨r, hrmem, hrd⟩ := List.mem_map.mp hx
      have : x = d := by simpa using hx2
      exact habs r hrmem (hrd.trans this)

/-- Witness for C6 (amended): the creation case on an empty store. -/
theorem get_or_create_record_spec_witness :
    lookupDate dbEmpty "2025-01-02" = none ∧
    (getEntryForDate 0 "2025-01-02" dbEmpty).1.activeMinutes = 0 :=
  ⟨rfl, ((get_or_create_record_spec 0 "2025-01-02" dbEmpty).2.1 rfl).2.1⟩

/-- Claim C7 counterexample: calling `MarkAsAutoLogged` twice with the same
date and note does not leave the persisted state identical to one call —
each call also inserts an advisory `auto_logged` row into `system_events`. -/
theorem mark_submitted_twice_counterexample :
    markAsAutoLogged 0 "2025-01-01" "note"
        (markAsAutoLogged 0 "2025-01-01" "note" exDb7)
      ≠ markAsAutoLogged 0 "2025-01-01" "note" exDb7 := by decide

/-- Claim C7 (amended): `MarkAsAutoLogged` is idempotent on the record table
— marking twice with the same note leaves `daily_time` identical to marking
once at the second call's time — while each call appends one advisory
`auto_logged` event to `system_events`. -/
theorem mark_submitted_record_idempotent (t1 t2 : Nat) (d note : String)
    (db : DBState) :
    (markAsAutoLogged t2 d note (markAsAutoLogged t1 d note db)).dailyTime
      = (markAsAutoLogged t2 d note db).dailyTime ∧
    (markAsAutoLogged t2 d note (markAsAutoLogged t1 d note db)).systemEvents
      = db.systemEvents
        ++ [⟨"auto_logged", t1, "Date: " ++ d⟩,
            ⟨"auto_logged", t2, "Date: " ++ d⟩] := by
  constructor
  · rw [dailyTime_markAsAutoLogged, dailyTime_markAsAutoLogged,
      dailyTime_markAsAutoLogged, List.map_map]
    apply List.map_congr_left
    intro r _
    by_cases hrp : r.date = d
    · have hb : (r.date == d) = true := beq_iff_eq.mpr hrp
      simp [hb, hrp]
    · have hb : (r.date == d) = false := beq_eq_false_iff_ne.mpr hrp
      simp [hb, hrp]
  · rw [systemEvents_markAsAutoLogged, systemEvents_markAsAutoLogged,
      List.append_assoc]
    rfl

end Timeclip
